import Mathlib

/-
Verification of the force-directed graph layout engine of
`src/frontend/src/components/InteractiveGraph.tsx`.

Modelling conventions:
* JavaScript numbers are modelled as real numbers (`ℝ`); `Math.sqrt`,
  `Math.cos`, `Math.sin` become `Real.sqrt`, `Real.cos`, `Real.sin`.
* The optional numeric fields `x?`, `y?`, `vx?`, `vy?` of a node are
  modelled as `Option ℝ`.  The source tests presence with JavaScript
  truthiness (`!node.x`), which is falsy for `undefined` AND for the
  number `0`; this is captured by `truthy` below.  The idiom `e || 0`
  is captured by `orZero`.
* `Math.random()` is modelled as an ambient stream `u : ℕ → ℝ` of draws
  with `0 ≤ u i < 1` (one draw per node index).
* JSX expressions returning `null` (skipped elements) are modelled as
  functions returning `Option`; `none` means the element is omitted.
  One caveat: where JavaScript division by zero yields `NaN`/`Infinity`,
  Lean division by zero yields `0`; no theorem below relies on the
  numeric value of a quantity produced by a division whose divisor is
  zero (the zero-length-edge theorems only use the fact that the guard
  does not fire, that the divisor is `0`, and that the label test fails).
* The TypeScript field `from` of an edge is renamed `fromId` (and `to`
  is renamed `toId` for symmetry) because `from` is a Lean keyword.
-/

open Classical

noncomputable section

/-- JavaScript truthiness of an optional numeric field: `undefined` and `0`
are falsy, every other number is truthy (models the checks `!node.x`,
`node.x && node.y`, ... in `InteractiveGraph.tsx`). -/
def truthy : Option ℝ → Prop
  | none => False
  | some v => v ≠ 0

/-- The JavaScript idiom `e || 0`: an absent value counts as `0`; for a
present number the result equals that number (`0 || 0` is `0`). -/
def orZero (o : Option ℝ) : ℝ := o.getD 0

@[simp] theorem truthy_some {v : ℝ} : truthy (some v) ↔ v ≠ 0 := Iff.rfl

@[simp] theorem truthy_none : ¬ truthy none := fun h => h

@[simp] theorem orZero_some (v : ℝ) : orZero (some v) = v := rfl

@[simp] theorem orZero_none : orZero none = 0 := rfl

/-- A graph node (interface `Node`, `InteractiveGraph.tsx` lines 5-15).
Position and velocity are optional, they are written by the engine. -/
structure GNode where
  id : String
  label : String
  nodeType : String
  description : Option String
  size : String
  x : Option ℝ
  y : Option ℝ
  vx : Option ℝ
  vy : Option ℝ

/-- A graph edge (interface `Edge`, lines 17-22).  `from`/`to` are
renamed `fromId`/`toId` (see header). -/
structure GEdge where
  fromId : String
  toId : String
  label : Option String
  edgeType : String

/-- `getNodeSize` (lines 164-171): size class to circle radius. -/
def getNodeSize (n : GNode) : ℝ :=
  if n.size = "large" then 35
  else if n.size = "medium" then 28
  else if n.size = "small" then 22
  else 25

/-- One iteration of the repulsion loop body (lines 85-100): node `i`
at `(x, y)` accumulates into `acc` the repulsion exerted by node `j` of
the current (partially updated) array `ns`.  Entries `j = i`, absent
entries and entries with a falsy coordinate are skipped; the force fires
only for `0 < distance < 120` and has components
`(dx / distance) * (500 / distance²)`. -/
def repulsionStep (ns : List GNode) (i : ℕ) (x y : ℝ) (acc : ℝ × ℝ) (j : ℕ) : ℝ × ℝ :=
  if j = i then acc
  else
    match ns[j]? with
    | none => acc
    | some other =>
      if truthy other.x ∧ truthy other.y then
        let dx := x - orZero other.x
        let dy := y - orZero other.y
        let distance := Real.sqrt (dx * dx + dy * dy)
        if 0 < distance ∧ distance < 120 then
          (acc.1 + dx / distance * (500 / (distance * distance)),
           acc.2 + dy / distance * (500 / (distance * distance)))
        else acc
      else acc

/-- The node (if any) connected to `node` by edge `e` (lines 103-109):
if `e.from === node.id` the first array entry whose id is `e.to`,
else if `e.to === node.id` the first entry whose id is `e.from`. -/
def connectedNode (ns : List GNode) (node : GNode) (e : GEdge) : Option GNode :=
  if e.fromId = node.id then ns.find? (fun n => n.id == e.toId)
  else if e.toId = node.id then ns.find? (fun n => n.id == e.fromId)
  else none

/-- One iteration of the attraction loop body (lines 102-122): edge `e`
adds a constant-magnitude pull of `0.1` toward the connected node when
that node exists, both endpoints have truthy coordinates, and the
distance exceeds `100`. -/
def attractionStep (ns : List GNode) (node : GNode) (acc : ℝ × ℝ) (e : GEdge) : ℝ × ℝ :=
  match connectedNode ns node e with
  | none => acc
  | some other =>
    if truthy other.x ∧ truthy other.y ∧ truthy node.x ∧ truthy node.y then
      let dx := orZero other.x - orZero node.x
      let dy := orZero other.y - orZero node.y
      let distance := Real.sqrt (dx * dx + dy * dy)
      if 100 < distance then (acc.1 + dx / distance * 0.1, acc.2 + dy / distance * 0.1)
      else acc
    else acc

/-- The accumulated force `(fx, fy)` on node `i` (lines 82-128): starts
at `(0, 0)`, threads through the repulsion loop over all indices, then
the attraction loop over all edges, then adds the centering term
`(centerX - x) * 0.01` componentwise. -/
def netForce (w h : ℝ) (edges : List GEdge) (ns : List GNode) (i : ℕ) (node : GNode) :
    ℝ × ℝ :=
  let x := orZero node.x
  let y := orZero node.y
  let rep := (List.range ns.length).foldl (repulsionStep ns i x y) (0, 0)
  let att := edges.foldl (attractionStep ns node) rep
  (att.1 + (w / 2 - x) * 0.01, att.2 + (h / 2 - y) * 0.01)

/-- Integration and clamping for one processed node (lines 130-139):
`vx' = (vx || 0) * 0.8 + fx * 0.1`, `x' = x + vx'` and then
`x'' = max(50, min(width - 50, x'))`.  (The source rereads the freshly
assigned `node.vx` and `node.x` through `|| 0`; for the real number just
stored, `v || 0` equals `v` when `v ≠ 0` and equals `0 = v` when `v = 0`,
so the reread is the identity and is inlined here.) -/
def updateNode (w h : ℝ) (edges : List GEdge) (ns : List GNode) (i : ℕ) (node : GNode) :
    GNode :=
  let f := netForce w h edges ns i node
  let vx := orZero node.vx * 0.8 + f.1 * 0.1
  let vy := orZero node.vy * 0.8 + f.2 * 0.1
  let x := orZero node.x + vx
  let y := orZero node.y + vy
  { node with
    vx := some vx
    vy := some vy
    x := some (max 50 (min (w - 50) x))
    y := some (max 50 (min (h - 50) y)) }

/-- The body of the `for (let i ...)` loop of `simulate` (lines 78-140)
for one index `i`: a node with a falsy coordinate is skipped
(`if (!node.x || !node.y) continue`), otherwise the entry is replaced by
its updated value.  The array is mutated in place in the source, so later
indices see the already-updated earlier entries; this is modelled by
returning the updated list. -/
def tickStep (w h : ℝ) (edges : List GEdge) (ns : List GNode) (i : ℕ) : List GNode :=
  match ns[i]? with
  | none => ns
  | some node =>
    if truthy node.x ∧ truthy node.y then ns.set i (updateNode w h edges ns i node)
    else ns

/-- One full call of `simulate` (lines 73-144): the loop body applied to
`i = 0, 1, ..., length - 1` in order, each step seeing the list produced
by the previous steps. -/
def simulate (w h : ℝ) (edges : List GEdge) (ns : List GNode) : List GNode :=
  (List.range ns.length).foldl (tickStep w h edges) ns

/-- Initial placement of the node of index `i` (lines 52-67):
`angle = (i / N) * 2π`, `randomOffset = (u i - 0.5) * 40`, position
`center + (cos angle, sin angle) * (radius + randomOffset)` with
`radius = min(width, height) * 0.35`; velocity `(0, 0)`. -/
def initNode (w h : ℝ) (count : ℕ) (u : ℕ → ℝ) (i : ℕ) (node : GNode) : GNode :=
  let centerX := w / 2
  let centerY := h / 2
  let radius := min w h * 0.35
  let angle := ((i : ℝ) / (count : ℝ)) * 2 * Real.pi
  let randomOffset := (u i - 0.5) * 40
  { node with
    x := some (centerX + Real.cos angle * (radius + randomOffset))
    y := some (centerY + Real.sin angle * (radius + randomOffset))
    vx := some 0
    vy := some 0 }

/-- `initializedNodes` (lines 56-67): `data.nodes.map((node, index) => ...)`. -/
def initializedNodes (w h : ℝ) (u : ℕ → ℝ) (ns : List GNode) : List GNode :=
  ns.mapIdx (fun i n => initNode w h ns.length u i n)

/-- The drag/selection state of the component (lines 44-45). -/
structure GraphState where
  nodes : List GNode
  isDragging : Bool
  dragNode : Option GNode
  selectedNode : Option GNode

/-- `handleMouseDown` (lines 173-178): start dragging `node` and select it. -/
def handleMouseDown (node : GNode) (s : GraphState) : GraphState :=
  { s with isDragging := true, dragNode := some node, selectedNode := some node }

/-- `handleMouseMove` (lines 180-196) with the pointer at SVG-relative
coordinates `(px, py)`: when a drag is active, the node whose id equals
the drag node's id gets position exactly `(px, py)` and velocity `(0, 0)`;
every other node is mapped to itself. -/
def handleMouseMove (px py : ℝ) (s : GraphState) : GraphState :=
  match s.dragNode with
  | none => s
  | some d =>
    if s.isDragging then
      { s with
        nodes := s.nodes.map (fun n =>
          if n.id = d.id then { n with x := some px, y := some py, vx := some 0, vy := some 0 }
          else n) }
    else s

/-- `handleMouseUp` (lines 198-201): clear the drag flags; the node list
(and in particular every stored velocity) is untouched. -/
def handleMouseUp (s : GraphState) : GraphState :=
  { s with isDragging := false, dragNode := none }

/-- One firing of the 50 ms interval (lines 146-148): it always calls
`simulate` on the whole node list; nothing in `simulate` or in the
interval consults `isDragging` or `dragNode`. -/
def tickState (w h : ℝ) (edges : List GEdge) (s : GraphState) : GraphState :=
  { s with nodes := simulate w h edges s.nodes }

/-- The data computed for one rendered edge (lines 239-251 and 267). -/
structure EdgeSeg where
  startX : ℝ
  startY : ℝ
  endX : ℝ
  endY : ℝ
  length : ℝ
  labelShown : Prop

/-- Edge rendering (lines 231-251): look up both endpoints by id, return
`none` (the JSX `return null`) if either is missing or has a falsy
coordinate; otherwise offset each endpoint along the unit vector between
centers by that node's radius.  There is no guard on `length = 0`: the
divisions `dx / length` are performed unconditionally.  The label is
shown only when the edge has a label and `length > 80` (line 267). -/
def renderEdge (ns : List GNode) (e : GEdge) : Option EdgeSeg :=
  match ns.find? (fun n => n.id == e.fromId), ns.find? (fun n => n.id == e.toId) with
  | some fromNode, some toNode =>
    if truthy fromNode.x ∧ truthy fromNode.y ∧ truthy toNode.x ∧ truthy toNode.y then
      let dx := orZero toNode.x - orZero fromNode.x
      let dy := orZero toNode.y - orZero fromNode.y
      let length := Real.sqrt (dx * dx + dy * dy)
      let unitX := dx / length
      let unitY := dy / length
      some
        { startX := orZero fromNode.x + unitX * getNodeSize fromNode
          startY := orZero fromNode.y + unitY * getNodeSize fromNode
          endX := orZero toNode.x - unitX * getNodeSize toNode
          endY := orZero toNode.y - unitY * getNodeSize toNode
          length := length
          labelShown := e.label ≠ none ∧ 80 < length }
    else none
  | _, _ => none

/-- Node rendering (lines 304-305): a node with a falsy coordinate is
skipped (`return null`); otherwise it is drawn at its position. -/
def renderNode (n : GNode) : Option (ℝ × ℝ) :=
  if truthy n.x ∧ truthy n.y then some (orZero n.x, orZero n.y) else none

end

noncomputable section

/-- Spec-side repulsion term, following the spec's words: for each other
node (index `j ≠ i`) at distance `d` with `0 < d < 120`, a force of
magnitude `500 / d²` directed away from that node (unit vector from the
other node to this one); nodes at distance `≥ 120`, the node itself, and
entries without a defined position contribute nothing. -/
def specRepulsionTerm (ns : List GNode) (i : ℕ) (x y : ℝ) (j : ℕ) : ℝ × ℝ :=
  if j = i then (0, 0)
  else
    match ns[j]? with
    | none => (0, 0)
    | some other =>
      if truthy other.x ∧ truthy other.y then
        let dx := x - orZero other.x
        let dy := y - orZero other.y
        let d := Real.sqrt (dx * dx + dy * dy)
        if 0 < d ∧ d < 120 then (500 / (d * d) * (dx / d), 500 / (d * d) * (dy / d))
        else (0, 0)
      else (0, 0)

/-- Spec-side attraction term, following the spec's words: for each edge
touching the node whose connected node lies at distance `d > 100`, a
constant-magnitude force `0.1` directed toward the connected node; edges
at distance `≤ 100` (and edges whose connected endpoint is missing or has
no defined position) contribute nothing. -/
def specAttractionTerm (ns : List GNode) (node : GNode) (e : GEdge) : ℝ × ℝ :=
  match connectedNode ns node e with
  | none => (0, 0)
  | some other =>
    if truthy other.x ∧ truthy other.y ∧ truthy node.x ∧ truthy node.y then
      let dx := orZero other.x - orZero node.x
      let dy := orZero other.y - orZero node.y
      let d := Real.sqrt (dx * dx + dy * dy)
      if 100 < d then (0.1 * (dx / d), 0.1 * (dy / d)) else (0, 0)
    else (0, 0)

/-- Spec-side centering term: `0.01` times the vector from the node's
position to the viewport center. -/
def centeringTerm (w h x y : ℝ) : ℝ × ℝ := (0.01 * (w / 2 - x), 0.01 * (h / 2 - y))

/-- Spec-side net force: the sum of the three terms of the claim. -/
def specNetForce (w h : ℝ) (edges : List GEdge) (ns : List GNode) (i : ℕ)
    (node : GNode) : ℝ × ℝ :=
  ((List.range ns.length).map (specRepulsionTerm ns i (orZero node.x) (orZero node.y))).sum
    + (edges.map (specAttractionTerm ns node)).sum
    + centeringTerm w h (orZero node.x) (orZero node.y)

/-- A left fold whose step adds a per-element pair to the accumulator,
componentwise, computes the accumulator plus the sum of the per-element
pairs. -/
theorem foldl_accum_eq_sum {α : Type*} (g : α → ℝ × ℝ) (step : ℝ × ℝ → α → ℝ × ℝ)
    (hstep : ∀ acc a, step acc a = (acc.1 + (g a).1, acc.2 + (g a).2)) :
    ∀ (l : List α) (acc : ℝ × ℝ), l.foldl step acc = acc + (l.map g).sum
  | [], acc => by simp
  | a :: l, acc => by
    rw [List.foldl_cons, hstep, List.map_cons, List.sum_cons,
      foldl_accum_eq_sum g step hstep l]
    apply Prod.ext <;> simp <;> ring

/-- The repulsion loop body adds exactly the spec-side repulsion term. -/
theorem repulsionStep_eq_term (ns : List GNode) (i : ℕ) (x y : ℝ) (acc : ℝ × ℝ) (j : ℕ) :
    repulsionStep ns i x y acc j =
      (acc.1 + (specRepulsionTerm ns i x y j).1, acc.2 + (specRepulsionTerm ns i x y j).2) := by
  unfold repulsionStep specRepulsionTerm
  by_cases hij : j = i
  · simp [hij]
  · simp only [if_neg hij]
    cases hj : ns[j]? with
    | none => simp
    | some other =>
      by_cases htr : truthy other.x ∧ truthy other.y
      · simp only [if_pos htr]
        set dx := x - orZero other.x with hdx
        set dy := y - orZero other.y with hdy
        set d := Real.sqrt (dx * dx + dy * dy) with hd
        by_cases hcond : 0 < d ∧ d < 120
        · simp only [if_pos hcond]
          apply Prod.ext <;> simp <;> ring
        · simp only [if_neg hcond]
          simp
      · simp only [if_neg htr]
        simp

/-- The attraction loop body adds exactly the spec-side attraction term. -/
theorem attractionStep_eq_term (ns : List GNode) (node : GNode) (acc : ℝ × ℝ) (e : GEdge) :
    attractionStep ns node acc e =
      (acc.1 + (specAttractionTerm ns node e).1, acc.2 + (specAttractionTerm ns node e).2) := by
  unfold attractionStep specAttractionTerm
  cases hc : connectedNode ns node e with
  | none => simp
  | some other =>
    by_cases htr : truthy other.x ∧ truthy other.y ∧ truthy node.x ∧ truthy node.y
    · simp only [if_pos htr]
      set dx := orZero other.x - orZero node.x with hdx
      set dy := orZero other.y - orZero node.y with hdy
      set d := Real.sqrt (dx * dx + dy * dy) with hd
      by_cases hcond : 100 < d
      · simp only [if_pos hcond]
        apply Prod.ext <;> simp <;> ring
      · simp only [if_neg hcond]
        simp
    · simp only [if_neg htr]
      simp

/-- The imperative force accumulation of `simulate` equals the spec-side
sum of the three force contributions. -/
theorem netForce_eq_specNetForce (w h : ℝ) (edges : List GEdge) (ns : List GNode)
    (i : ℕ) (node : GNode) :
    netForce w h edges ns i node = specNetForce w h edges ns i node := by
  simp only [netForce, specNetForce]
  rw [foldl_accum_eq_sum (specRepulsionTerm ns i (orZero node.x) (orZero node.y)) _
      (repulsionStep_eq_term ns i (orZero node.x) (orZero node.y)),
    foldl_accum_eq_sum (specAttractionTerm ns node) _
      (attractionStep_eq_term ns node)]
  apply Prod.ext <;> simp [centeringTerm] <;> ring

end

noncomputable section

/-- C1: For every simulation tick and every node with a truthy position,
the accumulated force is exactly the sum of the per-node repulsion terms
(`500/d²` away, only for `0 < d < 120`), the per-edge attraction terms
(`0.1` toward, only for `d > 100`) and the centering term (`0.01` times
the vector to the viewport center); the velocity becomes
`v' = 0.8·v + 0.1·F` and the position `p' = p + v'`, stored after
clamping. -/
theorem tick_force_integration (w h : ℝ) (edges : List GEdge) (ns : List GNode)
    (i : ℕ) (node : GNode) (hget : ns[i]? = some node)
    (hx : truthy node.x) (hy : truthy node.y) :
    tickStep w h edges ns i =
      ns.set i
        { node with
          vx := some (0.8 * orZero node.vx + 0.1 * (specNetForce w h edges ns i node).1)
          vy := some (0.8 * orZero node.vy + 0.1 * (specNetForce w h edges ns i node).2)
          x := some (max 50 (min (w - 50)
            (orZero node.x +
              (0.8 * orZero node.vx + 0.1 * (specNetForce w h edges ns i node).1))))
          y := some (max 50 (min (h - 50)
            (orZero node.y +
              (0.8 * orZero node.vy + 0.1 * (specNetForce w h edges ns i node).2)))) } := by
  have e1 : orZero node.vx * 0.8 + (specNetForce w h edges ns i node).1 * 0.1
      = 0.8 * orZero node.vx + 0.1 * (specNetForce w h edges ns i node).1 := by ring
  have e2 : orZero node.vy * 0.8 + (specNetForce w h edges ns i node).2 * 0.1
      = 0.8 * orZero node.vy + 0.1 * (specNetForce w h edges ns i node).2 := by ring
  simp only [tickStep, hget, if_pos (And.intro hx hy)]
  refine congrArg (ns.set i) ?_
  simp only [updateNode, netForce_eq_specNetForce, e1, e2]

/-- A shared concrete node used by several witnesses: truthy position
`(60, 60)`, zero velocity. -/
def nodeA : GNode :=
  { id := "a", label := "A", nodeType := "central", description := none, size := "large",
    x := some 60, y := some 60, vx := some 0, vy := some 0 }

theorem tick_force_integration_witness :
    tickStep 800 600 [] [nodeA] 0 =
      [nodeA].set 0
        { nodeA with
          vx := some (0.8 * orZero nodeA.vx + 0.1 * (specNetForce 800 600 [] [nodeA] 0 nodeA).1)
          vy := some (0.8 * orZero nodeA.vy + 0.1 * (specNetForce 800 600 [] [nodeA] 0 nodeA).2)
          x := some (max 50 (min (800 - 50)
            (orZero nodeA.x +
              (0.8 * orZero nodeA.vx + 0.1 * (specNetForce 800 600 [] [nodeA] 0 nodeA).1))))
          y := some (max 50 (min (600 - 50)
            (orZero nodeA.y +
              (0.8 * orZero nodeA.vy + 0.1 * (specNetForce 800 600 [] [nodeA] 0 nodeA).2)))) } :=
  tick_force_integration 800 600 [] [nodeA] 0 nodeA rfl
    (by norm_num [nodeA]) (by norm_num [nodeA])

/-- The loop body does not change the length of the node list. -/
theorem tickStep_length (w h : ℝ) (edges : List GEdge) (ns : List GNode) (i : ℕ) :
    (tickStep w h edges ns i).length = ns.length := by
  simp only [tickStep]
  split
  · rfl
  · split_ifs <;> simp

/-- The loop body at index `i` does not change any other index. -/
theorem tickStep_getElem_ne (w h : ℝ) (edges : List GEdge) (ns : List GNode)
    (i j : ℕ) (hne : j ≠ i) :
    (tickStep w h edges ns i)[j]? = ns[j]? := by
  simp only [tickStep]
  split
  · rfl
  · split_ifs with hcond
    · exact List.getElem?_set_ne (fun hh => hne hh.symm)
    · rfl

/-- Iterating the loop body does not change the length of the node list. -/
theorem foldl_tickStep_length (w h : ℝ) (edges : List GEdge) :
    ∀ (l : List ℕ) (ns : List GNode),
      (l.foldl (tickStep w h edges) ns).length = ns.length
  | [], _ => rfl
  | j :: l, ns => by
    rw [List.foldl_cons, foldl_tickStep_length w h edges l, tickStep_length]

/-- A node entry with a falsy coordinate is never modified by any number
of loop-body steps: step `i` skips it and every other step leaves index
`i` alone. -/
theorem foldl_tickStep_skip (w h : ℝ) (edges : List GEdge) (z : GNode)
    (hz : ¬ (truthy z.x ∧ truthy z.y)) (i : ℕ) :
    ∀ (l : List ℕ) (ns : List GNode), ns[i]? = some z →
      (l.foldl (tickStep w h edges) ns)[i]? = some z
  | [], _, hns => hns
  | j :: l, ns, hns => by
    rw [List.foldl_cons]
    apply foldl_tickStep_skip w h edges z hz i l
    by_cases hji : j = i
    · subst hji
      simp only [tickStep, hns, if_neg hz]
    · rw [tickStep_getElem_ne w h edges ns j i (fun hh => hji hh.symm)]
      exact hns

noncomputable section

/-- The clamped-bounds predicate of the spec: position present and inside
`[50, width-50] × [50, height-50]`. -/
def Bounded (w h : ℝ) (n : GNode) : Prop :=
  ∃ px py, n.x = some px ∧ n.y = some py ∧
    50 ≤ px ∧ px ≤ w - 50 ∧ 50 ≤ py ∧ py ≤ h - 50

/-- A processed node is always stored clamped, hence within bounds
(for a viewport of at least 100×100). -/
theorem updateNode_bounded (w h : ℝ) (edges : List GEdge) (ns : List GNode) (i : ℕ)
    (node : GNode) (hw : 100 ≤ w) (hh : 100 ≤ h) :
    Bounded w h (updateNode w h edges ns i node) := by
  refine ⟨_, _, rfl, rfl, le_max_left _ _, ?_, le_max_left _ _, ?_⟩
  · exact max_le (by linarith) (min_le_left _ _)
  · exact max_le (by linarith) (min_le_left _ _)

/-- One loop-body step preserves boundedness of the entry at index `i`. -/
theorem tickStep_preserves_bounded (w h : ℝ) (edges : List GEdge) (ns : List GNode)
    (j i : ℕ) (hw : 100 ≤ w) (hh : 100 ≤ h)
    (hP : ∀ n, ns[i]? = some n → Bounded w h n) :
    ∀ n, (tickStep w h edges ns j)[i]? = some n → Bounded w h n := by
  intro n hn
  by_cases hji : i = j
  · subst hji
    cases hj : ns[i]? with
    | none => simp only [tickStep, hj] at hn; exact Option.noConfusion hn
    | some node =>
      by_cases htr : truthy node.x ∧ truthy node.y
      · simp only [tickStep, hj, if_pos htr] at hn
        have hi : i < ns.length := (List.getElem?_eq_some.mp hj).1
        rw [List.getElem?_set_self hi] at hn
        obtain rfl := Option.some.inj hn
        exact updateNode_bounded w h edges ns i node hw hh
      · simp only [tickStep, hj, if_neg htr] at hn
        obtain rfl := Option.some.inj hn
        exact hP _ hj
  · rw [tickStep_getElem_ne w h edges ns j i hji] at hn
    exact hP n hn

/-- Main invariant for the tick loop: once index `i` is processed (or was
already bounded), its entry stays within the clamped bounds through any
further loop-body steps. -/
theorem foldl_tickStep_bounds (w h : ℝ) (edges : List GEdge)
    (hw : 100 ≤ w) (hh : 100 ≤ h) (i : ℕ) :
    ∀ (l : List ℕ) (ns : List GNode),
      ((∀ n, ns[i]? = some n → Bounded w h n) ∨
        (∃ node, ns[i]? = some node ∧ truthy node.x ∧ truthy node.y ∧ i ∈ l)) →
      ∀ n, (l.foldl (tickStep w h edges) ns)[i]? = some n → Bounded w h n
  | [], ns, hyp => by
    intro n hn
    rcases hyp with hP | ⟨node, _, _, _, hmem⟩
    · exact hP n hn
    · exact absurd hmem (List.not_mem_nil _)
  | j :: l, ns, hyp => by
    intro n hn
    rw [List.foldl_cons] at hn
    refine foldl_tickStep_bounds w h edges hw hh i l (tickStep w h edges ns j) ?_ n hn
    rcases hyp with hP | ⟨node, hnode, hxt, hyt, hmem⟩
    · exact Or.inl (tickStep_preserves_bounded w h edges ns j i hw hh hP)
    · by_cases hji : i = j
      · left
        subst hji
        intro m hm
        have hi : i < ns.length := (List.getElem?_eq_some.mp hnode).1
        simp only [tickStep, hnode, if_pos (And.intro hxt hyt)] at hm
        rw [List.getElem?_set_self hi] at hm
        obtain rfl := Option.some.inj hm
        exact updateNode_bounded w h edges ns i node hw hh
      · right
        refine ⟨node, ?_, hxt, hyt, ?_⟩
        · rw [tickStep_getElem_ne w h edges ns j i hji]
          exact hnode
        · rcases List.mem_cons.mp hmem with heq | hmem'
          · exact absurd heq hji
          · exact hmem'

/-- C2: After a simulation tick, every node that the tick processed (every
node whose position was truthy when the tick reached it) has a position
inside the clamped bounds `[50, width-50] × [50, height-50]` (stated for
any viewport of at least 100×100, which includes the 800×600 default). -/
theorem simulate_clamped_bounds (w h : ℝ) (edges : List GEdge) (ns : List GNode)
    (hw : 100 ≤ w) (hh : 100 ≤ h) (i : ℕ) (node : GNode)
    (hget : ns[i]? = some node) (hx : truthy node.x) (hy : truthy node.y) :
    ∃ node' px py,
      (simulate w h edges ns)[i]? = some node' ∧ node'.x = some px ∧ node'.y = some py ∧
      50 ≤ px ∧ px ≤ w - 50 ∧ 50 ≤ py ∧ py ≤ h - 50 := by
  have hi : i < ns.length := (List.getElem?_eq_some.mp hget).1
  have hlen : (simulate w h edges ns).length = ns.length :=
    foldl_tickStep_length w h edges (List.range ns.length) ns
  have hi' : i < (simulate w h edges ns).length := by rw [hlen]; exact hi
  obtain ⟨node', hnode'⟩ : ∃ n', (simulate w h edges ns)[i]? = some n' :=
    ⟨_, List.getElem?_eq_getElem hi'⟩
  have hb := foldl_tickStep_bounds w h edges hw hh i (List.range ns.length) ns
    (Or.inr ⟨node, hget, hx, hy, List.mem_range.mpr hi⟩) node' hnode'
  rcases hb with ⟨px, py, hx1, hy1, h1, h2, h3, h4⟩
  exact ⟨node', px, py, hnode', hx1, hy1, h1, h2, h3, h4⟩

theorem simulate_clamped_bounds_witness :
    (100 : ℝ) ≤ 800 ∧ (100 : ℝ) ≤ 600 ∧ truthy nodeA.x ∧ truthy nodeA.y ∧
    ∃ node' px py,
      (simulate 800 600 [] [nodeA])[0]? = some node' ∧ node'.x = some px ∧
      node'.y = some py ∧
      50 ≤ px ∧ px ≤ 800 - 50 ∧ 50 ≤ py ∧ py ≤ 600 - 50 :=
  ⟨by norm_num, by norm_num, by norm_num [nodeA], by norm_num [nodeA],
    simulate_clamped_bounds 800 600 [] [nodeA] (by norm_num) (by norm_num) 0 nodeA rfl
      (by norm_num [nodeA]) (by norm_num [nodeA])⟩

noncomputable section

/-- C10: A node whose `x` or `y` coordinate is exactly `0` is treated by
every presence check like a node with a missing position: the simulation
tick leaves its entry untouched (no forces, no motion), it exerts no
repulsion, it pulls nothing through an edge, it is not rendered, and
every edge whose endpoint lookup yields it is not rendered. -/
theorem zero_coordinate_is_missing (z : GNode) (hz : z.x = some 0 ∨ z.y = some 0) :
    (∀ (w h : ℝ) (edges : List GEdge) (ns : List GNode) (i : ℕ),
        ns[i]? = some z → (simulate w h edges ns)[i]? = some z) ∧
    (∀ (ns : List GNode) (i : ℕ) (x y : ℝ) (acc : ℝ × ℝ) (j : ℕ),
        ns[j]? = some z → repulsionStep ns i x y acc j = acc) ∧
    (∀ (ns : List GNode) (node : GNode) (acc : ℝ × ℝ) (e : GEdge),
        connectedNode ns node e = some z → attractionStep ns node acc e = acc) ∧
    renderNode z = none ∧
    (∀ (ns : List GNode) (e : GEdge),
        (ns.find? (fun n => n.id == e.fromId) = some z ∨
          ns.find? (fun n => n.id == e.toId) = some z) →
        renderEdge ns e = none) := by
  have hnt : ¬ (truthy z.x ∧ truthy z.y) := by
    rcases hz with hzx | hzy
    · intro hc
      rw [hzx] at hc
      exact hc.1 rfl
    · intro hc
      rw [hzy] at hc
      exact hc.2 rfl
  refine ⟨?_, ?_, ?_, ?_, ?_⟩
  · intro w h edges ns i hns
    exact foldl_tickStep_skip w h edges z hnt i (List.range ns.length) ns hns
  · intro ns i x y acc j hj
    by_cases hji : j = i
    · simp [repulsionStep, hji]
    · simp only [repulsionStep, if_neg hji, hj, if_neg hnt]
  · intro ns node acc e hc
    have hneg : ¬ (truthy z.x ∧ truthy z.y ∧ truthy node.x ∧ truthy node.y) :=
      fun hcon => hnt ⟨hcon.1, hcon.2.1⟩
    simp only [attractionStep, hc, if_neg hneg]
  · simp only [renderNode, if_neg hnt]
  · intro ns e hor
    rcases hor with hf | ht
    · cases hto : ns.find? (fun n => n.id == e.toId) with
      | none => simp only [renderEdge, hf, hto]
      | some toN =>
        have hneg : ¬ (truthy z.x ∧ truthy z.y ∧ truthy toN.x ∧ truthy toN.y) :=
          fun hcon => hnt ⟨hcon.1, hcon.2.1⟩
        simp only [renderEdge, hf, hto, if_neg hneg]
    · cases hfrom : ns.find? (fun n => n.id == e.fromId) with
      | none => simp only [renderEdge, hfrom, ht]
      | some fromN =>
        have hneg : ¬ (truthy fromN.x ∧ truthy fromN.y ∧ truthy z.x ∧ truthy z.y) :=
          fun hcon => hnt ⟨hcon.2.2.1, hcon.2.2.2⟩
        simp only [renderEdge, hfrom, ht, if_neg hneg]

/-- A node whose `x` stores the number `0` (used by the C10 witness). -/
def nodeZ : GNode :=
  { id := "z", label := "Z", nodeType := "support", description := none, size := "small",
    x := some 0, y := some 200, vx := some 0, vy := some 0 }

/-- An edge from `nodeA` to `nodeZ` (used by the C10 witness). -/
def edgeAZ : GEdge :=
  { fromId := "a", toId := "z", label := some "rel", edgeType := "primary" }

theorem zero_coordinate_is_missing_witness :
    (simulate 800 600 [edgeAZ] [nodeZ])[0]? = some nodeZ ∧
    repulsionStep [nodeZ] 1 60 60 (3, 4) 0 = (3, 4) ∧
    attractionStep [nodeZ] nodeA (3, 4) edgeAZ = (3, 4) ∧
    renderNode nodeZ = none ∧
    renderEdge [nodeA, nodeZ] edgeAZ = none := by
  have hth := zero_coordinate_is_missing nodeZ (Or.inl rfl)
  refine ⟨hth.1 800 600 [edgeAZ] [nodeZ] 0 rfl,
    hth.2.1 [nodeZ] 1 60 60 (3, 4) 0 rfl,
    hth.2.2.1 [nodeZ] nodeA (3, 4) edgeAZ rfl,
    hth.2.2.2.1,
    hth.2.2.2.2 [nodeA, nodeZ] edgeAZ (Or.inr rfl)⟩

noncomputable section

/-- With a drag active on `d`, a pointer-move maps each node entry by id:
the dragged id is pinned to the pointer with zero velocity, others are
untouched. -/
theorem handleMouseMove_nodes_getElem (px py : ℝ) (s : GraphState) (d : GNode)
    (hdrag : s.isDragging = true) (hd : s.dragNode = some d) (i : ℕ) :
    (handleMouseMove px py s).nodes[i]? =
      (s.nodes[i]?).map (fun n =>
        if n.id = d.id then { n with x := some px, y := some py, vx := some 0, vy := some 0 }
        else n) := by
  simp only [handleMouseMove, hd, hdrag, if_true, List.getElem?_map]

/-- C3 amended: while a drag is active, each pointer-move sets the node
whose id matches the drag node to exactly the pointer coordinates with
velocity `(0, 0)` and leaves every other node unchanged; the simulation
tick itself does not exempt the dragged node (see the counterexample
theorem, where a tick moves it off the pointer). -/
theorem mouse_move_pins_dragged_node (px py : ℝ) (s : GraphState) (d : GNode)
    (hdrag : s.isDragging = true) (hd : s.dragNode = some d) (i : ℕ) (n : GNode)
    (hn : s.nodes[i]? = some n) :
    (n.id = d.id →
      (handleMouseMove px py s).nodes[i]? =
        some { n with x := some px, y := some py, vx := some 0, vy := some 0 }) ∧
    (n.id ≠ d.id → (handleMouseMove px py s).nodes[i]? = some n) := by
  rw [handleMouseMove_nodes_getElem px py s d hdrag hd i, hn]
  constructor
  · intro hid
    simp [hid]
  · intro hid
    simp [hid]

/-- A second concrete node, at `(100, 100)` with radius class "large". -/
def nodeP : GNode :=
  { id := "p", label := "P", nodeType := "key", description := none, size := "large",
    x := some 100, y := some 100, vx := some 0, vy := some 0 }

/-- A drag-in-progress state: dragging `nodeA` over `[nodeA, nodeP]`. -/
def sDrag : GraphState :=
  { nodes := [nodeA, nodeP], isDragging := true, dragNode := some nodeA,
    selectedNode := none }

theorem mouse_move_pins_dragged_node_witness :
    ((handleMouseMove 200 300 sDrag).nodes[0]? =
      some { nodeA with x := some 200, y := some 300, vx := some 0, vy := some 0 }) ∧
    ((handleMouseMove 200 300 sDrag).nodes[1]? = some nodeP) :=
  ⟨(mouse_move_pins_dragged_node 200 300 sDrag nodeA rfl rfl 0 nodeA rfl).1 rfl,
   (mouse_move_pins_dragged_node 200 300 sDrag nodeA rfl rfl 1 nodeP rfl).2 (by decide)⟩

/-- The drag scenario of the C3 counterexample: pointer-down on `nodeA`,
then a pointer-move to `(60, 60)` (the node's own position, so the node
list is unchanged and the drag is active). -/
def dragState1 : GraphState :=
  handleMouseMove 60 60 (handleMouseDown nodeA
    { nodes := [nodeA], isDragging := false, dragNode := none, selectedNode := none })

/-- C3 as stated is false: with the drag still active on `nodeA` (pinned
to the pointer at `(60, 60)`), the next interval tick integrates forces
for it like for any node and moves it to `x = 60.34 ≠ 60`: the position
is not "set exactly to the pointer coordinates regardless of simulated
forces" while dragging. -/
theorem tick_moves_dragged_node :
    dragState1.isDragging = true ∧ dragState1.dragNode = some nodeA ∧
    ∃ n, (tickState 800 600 [] dragState1).nodes[0]? = some n ∧
      n.x = some (60.34 : ℝ) ∧ n.x ≠ some (60 : ℝ) := by
  refine ⟨rfl, rfl, ?_⟩
  have hnodes : dragState1.nodes = [nodeA] := rfl
  have hrange : List.range ([nodeA] : List GNode).length = [0] := by
    simp [List.range_succ]
  have htick : simulate 800 600 [] [nodeA] = [updateNode 800 600 [] [nodeA] 0 nodeA] := by
    simp only [simulate, hrange, List.foldl_cons, List.foldl_nil]
    simp only [tickStep, List.getElem?_cons_zero]
    rw [if_pos (by norm_num [nodeA] : truthy nodeA.x ∧ truthy nodeA.y)]
    rfl
  have hf : netForce 800 600 [] [nodeA] 0 nodeA = (3.4, 2.4) := by
    simp only [netForce, hrange, List.foldl_cons, List.foldl_nil]
    simp only [repulsionStep, if_pos rfl]
    simp only [nodeA, orZero_some]
    norm_num [Prod.ext_iff]
  have hts : (tickState 800 600 [] dragState1).nodes
      = [updateNode 800 600 [] [nodeA] 0 nodeA] := by
    show simulate 800 600 [] dragState1.nodes = _
    rw [hnodes, htick]
  have hux : (updateNode 800 600 [] [nodeA] 0 nodeA).x = some 60.34 := by
    have hxv : (updateNode 800 600 [] [nodeA] 0 nodeA).x
        = some (max 50 (min (800 - 50)
            (orZero nodeA.x +
              (orZero nodeA.vx * 0.8 + (netForce 800 600 [] [nodeA] 0 nodeA).1 * 0.1)))) := rfl
    rw [hxv, hf]
    simp only [nodeA, orZero_some]
    have h2 : (60 : ℝ) + (0 * 0.8 + (3.4, 2.4).1 * 0.1) = 60.34 := by norm_num
    rw [h2, min_eq_right (by norm_num : (60.34 : ℝ) ≤ 800 - 50),
      max_eq_right (by norm_num : (50 : ℝ) ≤ 60.34)]
  refine ⟨updateNode 800 600 [] [nodeA] 0 nodeA, ?_, hux, ?_⟩
  · rw [hts]
    rfl
  · rw [hux]
    intro hcon
    rw [Option.some.injEq] at hcon
    norm_num at hcon

/-- A node with nonzero stored velocity, as the simulation leaves behind
(used by the C4 counterexample). -/
def nodeV : GNode :=
  { id := "v", label := "V", nodeType := "key", description := none, size := "medium",
    x := some 60, y := some 60, vx := some 5, vy := some 5 }

/-- C4 as stated is false: pointer-down on `nodeV` immediately followed by
pointer-up ends the drag with the node still carrying velocity
`(5, 5) ≠ (0, 0)`: `handleMouseUp` only clears the drag flags and resets
no velocity (the reset happens in `handleMouseMove`, which need not run). -/
theorem mouse_up_keeps_velocity :
    (handleMouseUp (handleMouseDown nodeV
        { nodes := [nodeV], isDragging := false, dragNode := none,
          selectedNode := none })).nodes[0]? = some nodeV ∧
    nodeV.vx = some 5 ∧ nodeV.vy = some 5 ∧ (5 : ℝ) ≠ 0 :=
  ⟨rfl, rfl, rfl, by norm_num⟩

/-- C4 amended: pointer-up does not modify any node (in particular it
resets no velocity); the dragged node's velocity is zero at release
exactly because the last pointer-move of the drag stored `(0, 0)` — when
such a move is the last write, release leaves the node pinned with zero
velocity. -/
theorem mouse_up_no_velocity_reset (s : GraphState) (px py : ℝ) (d : GNode)
    (hdrag : s.isDragging = true) (hd : s.dragNode = some d) (i : ℕ) (n : GNode)
    (hn : s.nodes[i]? = some n) (hid : n.id = d.id) :
    (handleMouseUp s).nodes = s.nodes ∧
    (handleMouseUp (handleMouseMove px py s)).nodes[i]? =
      some { n with x := some px, y := some py, vx := some 0, vy := some 0 } := by
  refine ⟨rfl, ?_⟩
  have hmu : (handleMouseUp (handleMouseMove px py s)).nodes
      = (handleMouseMove px py s).nodes := rfl
  rw [hmu, handleMouseMove_nodes_getElem px py s d hdrag hd i, hn]
  simp [hid]

theorem mouse_up_no_velocity_reset_witness :
    (handleMouseUp sDrag).nodes = sDrag.nodes ∧
    (handleMouseUp (handleMouseMove 150 150 sDrag)).nodes[0]? =
      some { nodeA with x := some 150, y := some 150, vx := some 0, vy := some 0 } :=
  mouse_up_no_velocity_reset sDrag 150 150 nodeA rfl rfl 0 nodeA rfl rfl

noncomputable section

/-- First of two coincident nodes at `(150, 150)` (used by C5). -/
def nodeD1 : GNode :=
  { id := "d1", label := "D1", nodeType := "support", description := none, size := "small",
    x := some 150, y := some 150, vx := some 0, vy := some 0 }

/-- Second of two coincident nodes at `(150, 150)` (used by C5). -/
def nodeD2 : GNode :=
  { id := "d2", label := "D2", nodeType := "support", description := none, size := "small",
    x := some 150, y := some 150, vx := some 0, vy := some 0 }

/-- A labelled edge between the two coincident nodes (used by C5). -/
def edgeDD : GEdge :=
  { fromId := "d1", toId := "d2", label := some "dup", edgeType := "primary" }

/-- C5 as stated is false: for an edge whose endpoints coincide (distance
exactly 0) there is no guard: the divisor `length` is `0`, yet the edge
element is still emitted (`renderEdge` does not return `none`). -/
theorem zero_length_edge_not_omitted :
    Real.sqrt ((orZero nodeD2.x - orZero nodeD1.x) * (orZero nodeD2.x - orZero nodeD1.x) +
        (orZero nodeD2.y - orZero nodeD1.y) * (orZero nodeD2.y - orZero nodeD1.y)) = 0 ∧
    renderEdge [nodeD1, nodeD2] edgeDD ≠ none := by
  constructor
  · simp only [nodeD1, nodeD2, orZero_some]
    norm_num
  · have hf : List.find? (fun n => n.id == edgeDD.fromId) [nodeD1, nodeD2] = some nodeD1 := rfl
    have ht : List.find? (fun n => n.id == edgeDD.toId) [nodeD1, nodeD2] = some nodeD2 := rfl
    have htr : truthy nodeD1.x ∧ truthy nodeD1.y ∧ truthy nodeD2.x ∧ truthy nodeD2.y := by
      norm_num [nodeD1, nodeD2]
    simp only [renderEdge, hf, ht, if_pos htr]
    intro hcon
    exact Option.noConfusion hcon

/-- C5 amended: the renderer has no zero-length guard; for an edge whose
looked-up endpoints have truthy coordinates at coincident positions, the
edge element is still emitted, the computed length — the divisor of the
unit-vector division — is `0`, and only the label is omitted (the
`length > 80` test fails). -/
theorem zero_length_edge_emitted (ns : List GNode) (e : GEdge) (fromN toN : GNode)
    (hf : ns.find? (fun n => n.id == e.fromId) = some fromN)
    (ht : ns.find? (fun n => n.id == e.toId) = some toN)
    (h1 : truthy fromN.x) (h2 : truthy fromN.y) (h3 : truthy toN.x) (h4 : truthy toN.y)
    (hx : orZero toN.x = orZero fromN.x) (hy : orZero toN.y = orZero fromN.y) :
    ∃ seg, renderEdge ns e = some seg ∧ seg.length = 0 ∧ ¬ seg.labelShown := by
  have hlen : Real.sqrt ((orZero toN.x - orZero fromN.x) * (orZero toN.x - orZero fromN.x) +
      (orZero toN.y - orZero fromN.y) * (orZero toN.y - orZero fromN.y)) = 0 := by
    rw [hx, hy, sub_self, sub_self]
    norm_num
  have hcond : truthy fromN.x ∧ truthy fromN.y ∧ truthy toN.x ∧ truthy toN.y :=
    ⟨h1, h2, h3, h4⟩
  simp only [renderEdge, hf, ht, if_pos hcond]
  refine ⟨_, rfl, hlen, ?_⟩
  rintro ⟨-, hlt⟩
  rw [hlen] at hlt
  norm_num at hlt

theorem zero_length_edge_emitted_witness :
    ∃ seg, renderEdge [nodeD1, nodeD2] edgeDD = some seg ∧
      seg.length = 0 ∧ ¬ seg.labelShown :=
  zero_length_edge_emitted [nodeD1, nodeD2] edgeDD nodeD1 nodeD2 rfl rfl
    (by norm_num [nodeD1]) (by norm_num [nodeD1])
    (by norm_num [nodeD2]) (by norm_num [nodeD2]) rfl rfl

noncomputable section

/-- Every size class maps to a positive radius. -/
theorem getNodeSize_pos (n : GNode) : 0 < getNodeSize n := by
  unfold getNodeSize
  split_ifs <;> norm_num

/-- The two components of the unit vector between distinct points square
and sum to `1`. -/
theorem unit_vector_norm (dx dy : ℝ) (hS : 0 < dx * dx + dy * dy) :
    (dx / Real.sqrt (dx * dx + dy * dy)) ^ 2 +
      (dy / Real.sqrt (dx * dx + dy * dy)) ^ 2 = 1 := by
  have hL : 0 < Real.sqrt (dx * dx + dy * dy) := Real.sqrt_pos.mpr hS
  have hL2 : Real.sqrt (dx * dx + dy * dy) * Real.sqrt (dx * dx + dy * dy)
      = dx * dx + dy * dy := Real.mul_self_sqrt hS.le
  have hexp : (dx / Real.sqrt (dx * dx + dy * dy)) ^ 2 +
      (dy / Real.sqrt (dx * dx + dy * dy)) ^ 2 =
      (dx * dx + dy * dy) /
        (Real.sqrt (dx * dx + dy * dy) * Real.sqrt (dx * dx + dy * dy)) := by
    field_simp
    ring
  rw [hexp, hL2, div_self (ne_of_gt hS)]

/-- Scaling the unit vector between distinct points by `r ≥ 0` yields a
vector of Euclidean norm exactly `r`. -/
theorem offset_norm (dx dy r : ℝ) (hS : 0 < dx * dx + dy * dy) (hr : 0 ≤ r) :
    Real.sqrt ((dx / Real.sqrt (dx * dx + dy * dy) * r) ^ 2 +
      (dy / Real.sqrt (dx * dx + dy * dy) * r) ^ 2) = r := by
  have hsum : (dx / Real.sqrt (dx * dx + dy * dy) * r) ^ 2 +
      (dy / Real.sqrt (dx * dx + dy * dy) * r) ^ 2 =
      ((dx / Real.sqrt (dx * dx + dy * dy)) ^ 2 +
        (dy / Real.sqrt (dx * dx + dy * dy)) ^ 2) * r ^ 2 := by ring
  rw [hsum, unit_vector_norm dx dy hS, one_mul]
  exact Real.sqrt_sq hr

/-- C8: a rendered edge between two looked-up endpoints with distinct
truthy positions starts at the source center offset by exactly the source
radius along the unit vector toward the destination, and ends at the
destination center offset back by exactly the destination radius along
the same unit vector: the segment end points lie at Euclidean distance
`getNodeSize fromN` resp. `getNodeSize toN` from the two centers, along a
vector of unit norm. -/
theorem edge_boundary_offsets (ns : List GNode) (e : GEdge) (fromN toN : GNode)
    (hf : ns.find? (fun n => n.id == e.fromId) = some fromN)
    (ht : ns.find? (fun n => n.id == e.toId) = some toN)
    (h1 : truthy fromN.x) (h2 : truthy fromN.y) (h3 : truthy toN.x) (h4 : truthy toN.y)
    (hne : ¬ (orZero toN.x = orZero fromN.x ∧ orZero toN.y = orZero fromN.y)) :
    ∃ seg, renderEdge ns e = some seg ∧
      seg.startX = orZero fromN.x +
        (orZero toN.x - orZero fromN.x) /
          Real.sqrt ((orZero toN.x - orZero fromN.x) * (orZero toN.x - orZero fromN.x) +
            (orZero toN.y - orZero fromN.y) * (orZero toN.y - orZero fromN.y)) *
          getNodeSize fromN ∧
      seg.startY = orZero fromN.y +
        (orZero toN.y - orZero fromN.y) /
          Real.sqrt ((orZero toN.x - orZero fromN.x) * (orZero toN.x - orZero fromN.x) +
            (orZero toN.y - orZero fromN.y) * (orZero toN.y - orZero fromN.y)) *
          getNodeSize fromN ∧
      seg.endX = orZero toN.x -
        (orZero toN.x - orZero fromN.x) /
          Real.sqrt ((orZero toN.x - orZero fromN.x) * (orZero toN.x - orZero fromN.x) +
            (orZero toN.y - orZero fromN.y) * (orZero toN.y - orZero fromN.y)) *
          getNodeSize toN ∧
      seg.endY = orZero toN.y -
        (orZero toN.y - orZero fromN.y) /
          Real.sqrt ((orZero toN.x - orZero fromN.x) * (orZero toN.x - orZero fromN.x) +
            (orZero toN.y - orZero fromN.y) * (orZero toN.y - orZero fromN.y)) *
          getNodeSize toN ∧
      ((orZero toN.x - orZero fromN.x) /
          Real.sqrt ((orZero toN.x - orZero fromN.x) * (orZero toN.x - orZero fromN.x) +
            (orZero toN.y - orZero fromN.y) * (orZero toN.y - orZero fromN.y))) ^ 2 +
        ((orZero toN.y - orZero fromN.y) /
          Real.sqrt ((orZero toN.x - orZero fromN.x) * (orZero toN.x - orZero fromN.x) +
            (orZero toN.y - orZero fromN.y) * (orZero toN.y - orZero fromN.y))) ^ 2 = 1 ∧
      Real.sqrt ((seg.startX - orZero fromN.x) ^ 2 + (seg.startY - orZero fromN.y) ^ 2) =
        getNodeSize fromN ∧
      Real.sqrt ((seg.endX - orZero toN.x) ^ 2 + (seg.endY - orZero toN.y) ^ 2) =
        getNodeSize toN := by
  have hS : 0 < (orZero toN.x - orZero fromN.x) * (orZero toN.x - orZero fromN.x) +
      (orZero toN.y - orZero fromN.y) * (orZero toN.y - orZero fromN.y) := by
    rcases not_and_or.mp hne with hdx | hdy
    · have hdx0 : orZero toN.x - orZero fromN.x ≠ 0 := sub_ne_zero.mpr hdx
      have := mul_self_pos.mpr hdx0
      nlinarith [mul_self_nonneg (orZero toN.y - orZero fromN.y)]
    · have hdy0 : orZero toN.y - orZero fromN.y ≠ 0 := sub_ne_zero.mpr hdy
      have := mul_self_pos.mpr hdy0
      nlinarith [mul_self_nonneg (orZero toN.x - orZero fromN.x)]
  have hcond : truthy fromN.x ∧ truthy fromN.y ∧ truthy toN.x ∧ truthy toN.y :=
    ⟨h1, h2, h3, h4⟩
  simp only [renderEdge, hf, ht, if_pos hcond]
  refine ⟨_, rfl, rfl, rfl, rfl, rfl, unit_vector_norm _ _ hS, ?_, ?_⟩
  · rw [add_sub_cancel_left, add_sub_cancel_left]
    exact offset_norm _ _ _ hS (getNodeSize_pos fromN).le
  · rw [sub_sub_cancel_left, sub_sub_cancel_left, neg_pow, neg_pow]
    norm_num
    exact offset_norm _ _ _ hS (getNodeSize_pos toN).le

/-- A node at `(200, 100)` with radius class "small" (C8 witness). -/
def nodeQ : GNode :=
  { id := "q", label := "Q", nodeType := "support", description := none, size := "small",
    x := some 200, y := some 100, vx := some 0, vy := some 0 }

/-- The edge from `nodeP` to `nodeQ` (C8 witness). -/
def edgePQ : GEdge :=
  { fromId := "p", toId := "q", label := some "connects", edgeType := "primary" }

theorem edge_boundary_offsets_witness :
    ∃ seg, renderEdge [nodeP, nodeQ] edgePQ = some seg ∧
      seg.startX = orZero nodeP.x +
        (orZero nodeQ.x - orZero nodeP.x) /
          Real.sqrt ((orZero nodeQ.x - orZero nodeP.x) * (orZero nodeQ.x - orZero nodeP.x) +
            (orZero nodeQ.y - orZero nodeP.y) * (orZero nodeQ.y - orZero nodeP.y)) *
          getNodeSize nodeP ∧
      seg.startY = orZero nodeP.y +
        (orZero nodeQ.y - orZero nodeP.y) /
          Real.sqrt ((orZero nodeQ.x - orZero nodeP.x) * (orZero nodeQ.x - orZero nodeP.x) +
            (orZero nodeQ.y - orZero nodeP.y) * (orZero nodeQ.y - orZero nodeP.y)) *
          getNodeSize nodeP ∧
      seg.endX = orZero nodeQ.x -
        (orZero nodeQ.x - orZero nodeP.x) /
          Real.sqrt ((orZero nodeQ.x - orZero nodeP.x) * (orZero nodeQ.x - orZero nodeP.x) +
            (orZero nodeQ.y - orZero nodeP.y) * (orZero nodeQ.y - orZero nodeP.y)) *
          getNodeSize nodeQ ∧
      seg.endY = orZero nodeQ.y -
        (orZero nodeQ.y - orZero nodeP.y) /
          Real.sqrt ((orZero nodeQ.x - orZero nodeP.x) * (orZero nodeQ.x - orZero nodeP.x) +
            (orZero nodeQ.y - orZero nodeP.y) * (orZero nodeQ.y - orZero nodeP.y)) *
          getNodeSize nodeQ ∧
      ((orZero nodeQ.x - orZero nodeP.x) /
          Real.sqrt ((orZero nodeQ.x - orZero nodeP.x) * (orZero nodeQ.x - orZero nodeP.x) +
            (orZero nodeQ.y - orZero nodeP.y) * (orZero nodeQ.y - orZero nodeP.y))) ^ 2 +
        ((orZero nodeQ.y - orZero nodeP.y) /
          Real.sqrt ((orZero nodeQ.x - orZero nodeP.x) * (orZero nodeQ.x - orZero nodeP.x) +
            (orZero nodeQ.y - orZero nodeP.y) * (orZero nodeQ.y - orZero nodeP.y))) ^ 2 = 1 ∧
      Real.sqrt ((seg.startX - orZero nodeP.x) ^ 2 + (seg.startY - orZero nodeP.y) ^ 2) =
        getNodeSize nodeP ∧
      Real.sqrt ((seg.endX - orZero nodeQ.x) ^ 2 + (seg.endY - orZero nodeQ.y) ^ 2) =
        getNodeSize nodeQ :=
  edge_boundary_offsets [nodeP, nodeQ] edgePQ nodeP nodeQ rfl rfl
    (by norm_num [nodeP]) (by norm_num [nodeP]) (by norm_num [nodeQ]) (by norm_num [nodeQ])
    (by norm_num [nodeP, nodeQ])

noncomputable section

/-- C9: rendering degrades gracefully: an edge whose `from` (or `to`)
identifier matches no node in the list is skipped (the JSX returns
`null`, modelled as `none`), and a node with a missing `x` or `y` is
skipped; all rendering functions are total, so no error is raised. -/
theorem rendering_skips_silently :
    (∀ (ns : List GNode) (e : GEdge),
        (∀ n ∈ ns, n.id ≠ e.fromId) → renderEdge ns e = none) ∧
    (∀ (ns : List GNode) (e : GEdge),
        (∀ n ∈ ns, n.id ≠ e.toId) → renderEdge ns e = none) ∧
    (∀ n : GNode, n.x = none ∨ n.y = none → renderNode n = none) := by
  refine ⟨?_, ?_, ?_⟩
  · intro ns e hnone
    have hf : ns.find? (fun n => n.id == e.fromId) = none :=
      List.find?_eq_none.mpr (fun n hn => by simpa using hnone n hn)
    simp only [renderEdge, hf]
  · intro ns e hnone
    have ht : ns.find? (fun n => n.id == e.toId) = none :=
      List.find?_eq_none.mpr (fun n hn => by simpa using hnone n hn)
    cases hfrom : ns.find? (fun n => n.id == e.fromId) with
    | none => simp only [renderEdge, hfrom]
    | some fromN => simp only [renderEdge, hfrom, ht]
  · intro n hn
    have hneg : ¬ (truthy n.x ∧ truthy n.y) := by
      rcases hn with h | h <;> rw [h] <;> simp
    simp only [renderNode, if_neg hneg]

/-- An edge whose `from` id matches no node (C9 witness). -/
def edgeGhostFrom : GEdge :=
  { fromId := "ghost", toId := "a", label := none, edgeType := "primary" }

/-- An edge whose `to` id matches no node (C9 witness). -/
def edgeGhostTo : GEdge :=
  { fromId := "a", toId := "phantom", label := none, edgeType := "primary" }

/-- A node with a missing `x` coordinate (C9 witness). -/
def nodeNoPos : GNode :=
  { id := "n", label := "N", nodeType := "support", description := none, size := "small",
    x := none, y := some 5, vx := none, vy := none }

theorem rendering_skips_silently_witness :
    renderEdge [nodeA] edgeGhostFrom = none ∧
    renderEdge [nodeA] edgeGhostTo = none ∧
    renderNode nodeNoPos = none :=
  ⟨rendering_skips_silently.1 [nodeA] edgeGhostFrom
      (fun n hn => by rw [List.mem_singleton] at hn; subst hn; decide),
   rendering_skips_silently.2.1 [nodeA] edgeGhostTo
      (fun n hn => by rw [List.mem_singleton] at hn; subst hn; decide),
   rendering_skips_silently.2.2 nodeNoPos (Or.inl rfl)⟩

noncomputable section

/-- C6: initialization places node `i` of `N` nodes at angle `2π·i/N` on
the circle of radius `0.35·min(width,height)` around the viewport center,
displaced radially by the jitter `(u i - 0.5)·40`, whose magnitude is at
most `20` px (the Euclidean distance between the assigned position and
the unjittered circle point is `|off| ≤ 20`); the initial velocity is
exactly `(0, 0)`. -/
theorem init_circle_layout (w h : ℝ) (u : ℕ → ℝ) (ns : List GNode) (i : ℕ)
    (node : GNode) (hget : ns[i]? = some node) (hu : ∀ j, 0 ≤ u j ∧ u j < 1) :
    ∃ node' off,
      (initializedNodes w h u ns)[i]? = some node' ∧
      |off| ≤ 20 ∧
      node'.x = some (w / 2 +
        Real.cos (2 * Real.pi * i / ns.length) * (0.35 * min w h + off)) ∧
      node'.y = some (h / 2 +
        Real.sin (2 * Real.pi * i / ns.length) * (0.35 * min w h + off)) ∧
      Real.sqrt ((orZero node'.x -
          (w / 2 + Real.cos (2 * Real.pi * i / ns.length) * (0.35 * min w h))) ^ 2 +
        (orZero node'.y -
          (h / 2 + Real.sin (2 * Real.pi * i / ns.length) * (0.35 * min w h))) ^ 2) =
        |off| ∧
      node'.vx = some 0 ∧ node'.vy = some 0 := by
  have harg : ((i : ℝ) / (ns.length : ℝ)) * 2 * Real.pi
      = 2 * Real.pi * i / ns.length := by ring
  have hgot : (initializedNodes w h u ns)[i]? = some (initNode w h ns.length u i node) := by
    simp [initializedNodes, List.getElem?_mapIdx, hget]
  have hx : (initNode w h ns.length u i node).x = some (w / 2 +
      Real.cos (2 * Real.pi * i / ns.length) * (0.35 * min w h + (u i - 0.5) * 40)) := by
    simp only [initNode]
    apply congrArg some
    rw [harg]
    ring
  have hy : (initNode w h ns.length u i node).y = some (h / 2 +
      Real.sin (2 * Real.pi * i / ns.length) * (0.35 * min w h + (u i - 0.5) * 40)) := by
    simp only [initNode]
    apply congrArg some
    rw [harg]
    ring
  have habs : |(u i - 0.5) * 40| ≤ 20 := by
    rw [abs_le]
    constructor <;> nlinarith [(hu i).1, (hu i).2]
  have hpyth := Real.sin_sq_add_cos_sq (2 * Real.pi * i / ns.length)
  refine ⟨initNode w h ns.length u i node, (u i - 0.5) * 40,
    hgot, habs, hx, hy, ?_, rfl, rfl⟩
  rw [hx, hy]
  have hsum : (w / 2 + Real.cos (2 * Real.pi * i / ns.length) *
        (0.35 * min w h + (u i - 0.5) * 40) -
        (w / 2 + Real.cos (2 * Real.pi * i / ns.length) * (0.35 * min w h))) ^ 2 +
      (h / 2 + Real.sin (2 * Real.pi * i / ns.length) *
        (0.35 * min w h + (u i - 0.5) * 40) -
        (h / 2 + Real.sin (2 * Real.pi * i / ns.length) * (0.35 * min w h))) ^ 2
      = ((u i - 0.5) * 40) ^ 2 := by
    linear_combination (((u i - 0.5) * 40) ^ 2) * hpyth
  rw [orZero_some, orZero_some, hsum, Real.sqrt_sq_eq_abs]

theorem init_circle_layout_witness :
    (∀ j : ℕ, (0 : ℝ) ≤ 0.5 ∧ (0.5 : ℝ) < 1) ∧
    ∃ node' off,
      (initializedNodes 800 600 (fun _ => (0.5 : ℝ)) [nodeA])[0]? = some node' ∧
      |off| ≤ 20 ∧
      node'.x = some (800 / 2 +
        Real.cos (2 * Real.pi * (0 : ℕ) / ([nodeA] : List GNode).length) *
          (0.35 * min 800 600 + off)) ∧
      node'.y = some (600 / 2 +
        Real.sin (2 * Real.pi * (0 : ℕ) / ([nodeA] : List GNode).length) *
          (0.35 * min 800 600 + off)) ∧
      Real.sqrt ((orZero node'.x -
          (800 / 2 + Real.cos (2 * Real.pi * (0 : ℕ) / ([nodeA] : List GNode).length) *
            (0.35 * min 800 600))) ^ 2 +
        (orZero node'.y -
          (600 / 2 + Real.sin (2 * Real.pi * (0 : ℕ) / ([nodeA] : List GNode).length) *
            (0.35 * min 800 600))) ^ 2) = |off| ∧
      node'.vx = some 0 ∧ node'.vy = some 0 :=
  ⟨fun _ => ⟨by norm_num, by norm_num⟩,
   init_circle_layout 800 600 (fun _ => (0.5 : ℝ)) [nodeA] 0 nodeA rfl
     (fun _ => ⟨by norm_num, by norm_num⟩)⟩

/-- C7 as stated is false: in a 100×100 viewport (circle radius 35) the
legal `Math.random()` draw `0.9` (radial offset `+16`) places the single
node at `x = 101 > 100 = width`, outside the viewport. -/
theorem init_outside_viewport :
    (∀ j : ℕ, (0 : ℝ) ≤ 0.9 ∧ (0.9 : ℝ) < 1) ∧
    ∃ n, (initializedNodes 100 100 (fun _ => (0.9 : ℝ)) [nodeA])[0]? = some n ∧
      n.x = some (101 : ℝ) ∧ ¬ ((101 : ℝ) ≤ 100) := by
  refine ⟨fun _ => ⟨by norm_num, by norm_num⟩,
    initNode 100 100 1 (fun _ => (0.9 : ℝ)) 0 nodeA, ?_, ?_, by norm_num⟩
  · simp [initializedNodes, List.getElem?_mapIdx]
  · simp only [initNode]
    apply congrArg some
    norm_num [Real.cos_zero, min_self]

/-- C7 amended: immediately after initialization every node's position
lies inside the viewport `[0, w] × [0, h]` PROVIDED the jittered circle
cannot reach the border: `0.35·min(w,h) + 20 ≤ w/2` and
`0.35·min(w,h) + 20 ≤ h/2` (both hold for the 800×600 default); for
small viewports the property fails (see the counterexample). -/
theorem init_within_viewport (w h : ℝ) (u : ℕ → ℝ) (ns : List GNode)
    (hu : ∀ j, 0 ≤ u j ∧ u j < 1) (hw : 0 < w) (hh : 0 < h)
    (hbw : 0.35 * min w h + 20 ≤ w / 2) (hbh : 0.35 * min w h + 20 ≤ h / 2)
    (i : ℕ) (node' : GNode)
    (hget : (initializedNodes w h u ns)[i]? = some node') :
    ∃ px py, node'.x = some px ∧ node'.y = some py ∧
      0 ≤ px ∧ px ≤ w ∧ 0 ≤ py ∧ py ≤ h := by
  rw [initializedNodes, List.getElem?_mapIdx] at hget
  cases horig : ns[i]? with
  | none =>
    rw [horig] at hget
    exact Option.noConfusion hget
  | some orig =>
    rw [horig, Option.map_some'] at hget
    obtain rfl := Option.some.inj hget
    have hcomm : min w h * 0.35 = 0.35 * min w h := mul_comm _ _
    have hmin0 : 0 ≤ min w h := le_min hw.le hh.le
    have hr0 : 0 ≤ min w h * 0.35 := by nlinarith
    have hoff : -20 ≤ (u i - 0.5) * 40 ∧ (u i - 0.5) * 40 ≤ 20 := by
      constructor <;> nlinarith [(hu i).1, (hu i).2]
    have habs2 : |min w h * 0.35 + (u i - 0.5) * 40| ≤ min w h * 0.35 + 20 :=
      abs_le.mpr ⟨by linarith [hoff.1], by linarith [hoff.2]⟩
    have hxbound : |Real.cos ((i : ℝ) / (ns.length : ℝ) * 2 * Real.pi) *
        (min w h * 0.35 + (u i - 0.5) * 40)| ≤ min w h * 0.35 + 20 := by
      rw [abs_mul]
      calc |Real.cos ((i : ℝ) / (ns.length : ℝ) * 2 * Real.pi)| *
            |min w h * 0.35 + (u i - 0.5) * 40|
          ≤ 1 * (min w h * 0.35 + 20) :=
            mul_le_mul (Real.abs_cos_le_one _) habs2 (abs_nonneg _) zero_le_one
        _ = min w h * 0.35 + 20 := one_mul _
    have hybound : |Real.sin ((i : ℝ) / (ns.length : ℝ) * 2 * Real.pi) *
        (min w h * 0.35 + (u i - 0.5) * 40)| ≤ min w h * 0.35 + 20 := by
      rw [abs_mul]
      calc |Real.sin ((i : ℝ) / (ns.length : ℝ) * 2 * Real.pi)| *
            |min w h * 0.35 + (u i - 0.5) * 40|
          ≤ 1 * (min w h * 0.35 + 20) :=
            mul_le_mul (Real.abs_sin_le_one _) habs2 (abs_nonneg _) zero_le_one
        _ = min w h * 0.35 + 20 := one_mul _
    have hx2 := abs_le.mp hxbound
    have hy2 := abs_le.mp hybound
    simp only [initNode]
    refine ⟨_, _, rfl, rfl, ?_, ?_, ?_, ?_⟩
    · linarith [hx2.1]
    · linarith [hx2.2]
    · linarith [hy2.1]
    · linarith [hy2.2]

theorem init_within_viewport_witness :
    ∃ px py,
      (initNode 800 600 ([nodeA] : List GNode).length (fun _ => (0.5 : ℝ)) 0 nodeA).x
        = some px ∧
      (initNode 800 600 ([nodeA] : List GNode).length (fun _ => (0.5 : ℝ)) 0 nodeA).y
        = some py ∧
      0 ≤ px ∧ px ≤ 800 ∧ 0 ≤ py ∧ py ≤ 600 :=
  init_within_viewport 800 600 (fun _ => (0.5 : ℝ)) [nodeA]
    (fun _ => ⟨by norm_num, by norm_num⟩) (by norm_num) (by norm_num)
    (by norm_num) (by norm_num) 0
    (initNode 800 600 ([nodeA] : List GNode).length (fun _ => (0.5 : ℝ)) 0 nodeA)
    (by simp [initializedNodes, List.getElem?_mapIdx])
